import Mathlib

/-!
Verification development for `count_teams_by_county_2025.py`.

The script fetches FRC team records from The Blue Alliance, resolves each
team to a Michigan county (ZIP → county, with a city/state → ZIP guessing
fallback), aggregates distinct-team counts per county, and left-joins the
counts onto county geometries for rendering.

This file gives a shallow embedding of the script's data-cleaning core.
Python strings are modelled as Lean `String`s (ASCII fragment: the string
operations `strip`/`upper`/`lower`/`title` are modelled on the ASCII
letters and ASCII whitespace they act on in this data set).  Missing
values (`None`/`NaN`) are modelled as `Option`.  The pgeocode gazetteer
and The Blue Alliance API are external collaborators and appear as
parameters: a postal-code → county-name partial map, a table of place
rows, and an environment of fallible fetch operations (`Except` models
Python exception propagation; `requests.raise_for_status` raises and the
script installs no handler inside `main`, so any fetch error propagates).

`pandas.Series.str.contains` is called with its default `regex=True`; for
the metacharacter-free city names this data set carries it coincides with
substring containment, which is how it is modelled here.
-/

/-! ### Python string primitives (ASCII model) -/

/-- The ASCII whitespace characters removed by Python `str.strip()`. -/
def isPySpace (c : Char) : Bool :=
  c.toNat = 32 || c.toNat = 9 || c.toNat = 10 || c.toNat = 13 || c.toNat = 11 || c.toNat = 12

/-- ASCII letter test (the cased characters of the ASCII fragment). -/
def isAsciiAlpha (c : Char) : Bool :=
  (65 ≤ c.toNat && c.toNat ≤ 90) || (97 ≤ c.toNat && c.toNat ≤ 122)

/-- Python `str.lstrip()` on the character list. -/
def lstripL (l : List Char) : List Char := l.dropWhile isPySpace

/-- Python `str.rstrip()` on the character list. -/
def rstripL : List Char → List Char
  | [] => []
  | c :: cs =>
    match rstripL cs with
    | [] => if isPySpace c then [] else [c]
    | d :: ds => c :: d :: ds

/-- Python `str.strip()` on the character list. -/
def pyStripL (l : List Char) : List Char := rstripL (lstripL l)

/-- Python `str.strip()`. -/
def pyStrip (s : String) : String := ⟨pyStripL s.data⟩

/-- Python `str.upper()` (ASCII). -/
def pyUpper (s : String) : String := ⟨s.data.map Char.toUpper⟩

/-- Python `str.lower()` (ASCII). -/
def pyLower (s : String) : String := ⟨s.data.map Char.toLower⟩

/-- One character of Python `str.title()`: upper-case a letter that follows a
non-letter, lower-case a letter that follows a letter, keep the rest. -/
def titleChar (prevAlpha : Bool) (c : Char) : Char :=
  if isAsciiAlpha c then (if prevAlpha then Char.toLower c else Char.toUpper c) else c

/-- Python `str.title()` on a character list; the `Bool` records whether the
previous character was a letter. -/
def titleAux : Bool → List Char → List Char
  | _, [] => []
  | prevAlpha, c :: cs => titleChar prevAlpha c :: titleAux (isAsciiAlpha c) cs

/-- Python `str.title()`. -/
def pyTitle (s : String) : String := ⟨titleAux false s.data⟩

/-- Python slicing `s[:n]`. -/
def strTake (n : Nat) (s : String) : String := ⟨s.data.take n⟩

/-- Python `s.replace(" County", "")` on the character list: remove every
non-overlapping occurrence of `" County"`, scanning left to right. -/
def removeCountyAux : List Char → List Char
  | ' ' :: 'C' :: 'o' :: 'u' :: 'n' :: 't' :: 'y' :: rest => removeCountyAux rest
  | c :: cs => c :: removeCountyAux cs
  | [] => []

/-- Python `s.replace(" County", "")`. -/
def removeCountyAll (s : String) : String := ⟨removeCountyAux s.data⟩

/-- Does the character list contain `" County"` as a contiguous substring? -/
def containsCounty : List Char → Bool
  | ' ' :: 'C' :: 'o' :: 'u' :: 'n' :: 't' :: 'y' :: _ => true
  | _ :: cs => containsCounty cs
  | [] => false

/-! ### Address Resolver: `zip_to_county` (source lines 129–140) -/

/-- `zip_to_county`, with the pgeocode postal-code → county-name gazetteer as
the parameter `gaz` (`none` models a NaN `county_name`).  The source rejects
falsy or short inputs, looks up `str(zipcode).strip()[:5]`, and normalises
the result with `county.replace(" County", "").strip()`. -/
def zip_to_county (gaz : String → Option String) (zipcode : Option String) : Option String :=
  match zipcode with
  | none => none
  | some zc =>
    if zc = "" || zc.length < 5 then none
    else
      match gaz (strTake 5 (pyStrip zc)) with
      | none => none
      | some county => some (pyStrip (removeCountyAll county))

/-! ### County canonicalisation (source lines 255–257, 271, 311) -/

/-- The `str.title().str.strip()` cleaning applied to the records' county
column (line 257) and to the geometry's county name field (line 311). -/
def canonTitleStrip (s : String) : String := pyStrip (pyTitle s)

/-- The full transformation a county string undergoes on the aggregate side
before the join: `str.title().str.strip()` (line 257) followed by
`str.replace(" County", "", regex=False)` on the group keys (line 271). -/
def canonAggKey (s : String) : String := removeCountyAll (canonTitleStrip s)

/-! ### Address Resolver: `city_state_to_zip_guess` (source lines 202–235) -/

/-- One row of the pgeocode place table (`nomi._data`): place name, state
code, postal code.  `Option` models NaN entries, which fail both matches
(`na=False`) and the `pd.notna` postal-code check. -/
structure PlaceRow where
  place_name : Option String
  state_code : String
  postal_code : Option String
deriving DecidableEq

/-- State normalisation of `city_state_to_zip_guess`: strip, upper-case, and
map a spelled-out `"MICHIGAN"` to `"MI"` (the state_map lookup happens after
upper-casing, so only the upper-cased key can hit). -/
def stateNormOf (state : String) : String :=
  let s := pyUpper (pyStrip state)
  if s = "MICHIGAN" then "MI" else s

/-- Substring containment on character lists (Python `pat in hay` /
metacharacter-free `str.contains`). -/
def hasSub (pat : List Char) : List Char → Bool
  | [] => pat.isEmpty
  | c :: cs => pat.isPrefixOf (c :: cs) || hasSub pat cs

/-- The exact-match predicate: `place_name.str.lower() == city_norm.lower()`
and `state_code == state_norm` (a NaN place name compares unequal). -/
def exactPlaceMatch (cityLower stateNorm : String) (r : PlaceRow) : Bool :=
  (match r.place_name with
   | some p => pyLower p == cityLower
   | none => false) && (r.state_code == stateNorm)

/-- The partial-match predicate: `place_name.str.lower()` contains
`city_norm.lower()` (`na=False`), and `state_code == state_norm`. -/
def substrPlaceMatch (cityLower stateNorm : String) (r : PlaceRow) : Bool :=
  (match r.place_name with
   | some p => hasSub cityLower.data (pyLower p).data
   | none => false) && (r.state_code == stateNorm)

/-- The body of the `try` block of `city_state_to_zip_guess`: exact match
first; if the exact matches are empty, or the postal code of their first row
is NaN, fall through to the partial match; return the first partial row's
postal code if not NaN; otherwise `None`. -/
def guessSearchBody (gaz : List PlaceRow) (city state : String) : Option String :=
  let cityLower := pyLower (pyStrip city)
  let stateNorm := stateNormOf state
  let sub :=
    match gaz.filter (substrPlaceMatch cityLower stateNorm) with
    | [] => none
    | r :: _ => r.postal_code
  match gaz.filter (exactPlaceMatch cityLower stateNorm) with
  | [] => sub
  | r :: _ =>
    match r.postal_code with
    | some p => some p
    | none => sub

/-- `city_state_to_zip_guess` with its gazetteer search in pure form: reject
falsy city or state, then run the search body. -/
def city_state_to_zip_guess (gaz : List PlaceRow) (city state : Option String) : Option String :=
  match city, state with
  | some c, some st => if c = "" || st = "" then none else guessSearchBody gaz c st
  | _, _ => none

/-- `city_state_to_zip_guess` with the `try` block abstracted: `search`
stands for the computation of the `try` body over the gazetteer and may
raise (`Except.error`); the bare `except` returns `None`.  The falsy-input
check happens before the `try` block, as in the source. -/
def city_state_to_zip_guessE (search : String → String → Except String (Option String))
    (city state : Option String) : Option String :=
  match city, state with
  | some c, some st =>
    if c = "" || st = "" then none
    else
      match search c st with
      | .ok v => v
      | .error _ => none
  | _, _ => none

/-! ### Team Collector (source lines 105–127, 163–191) -/

/-- The fields of a team-details response used by the script. -/
structure TeamDetail where
  team_number : Option Int
  nickname : Option String
  name : Option String
  city : Option String
  state_prov : Option String
  postal_code : Option String
deriving DecidableEq

/-- Python `a or b` on two optional strings (an empty string is falsy). -/
def pyOrElse (a b : Option String) : Option String :=
  match a with
  | some s => if s = "" then b else some s
  | none => b

/-- The Michigan filter on a team's own recorded state (line 182):
`state and state.upper() in ("MI", "MICHIGAN")`. -/
def stateAccepted (s : Option String) : Bool :=
  match s with
  | none => false
  | some st => !(st == "") && (pyUpper st == "MI" || pyUpper st == "MICHIGAN")

/-- One record of the `rows` list built in step 3 of `main`. -/
structure TeamRow where
  team_key : String
  team_number : Option Int
  name : Option String
  city : Option String
  state : Option String
  postal_code : Option String
  county : Option String
deriving DecidableEq

/-- The row dict appended for a kept team (lines 183–190); the county column
does not exist yet. -/
def mkRow (tk : String) (d : TeamDetail) : TeamRow :=
  { team_key := tk
    team_number := d.team_number
    name := pyOrElse d.nickname d.name
    city := d.city
    state := d.state_prov
    postal_code := d.postal_code
    county := none }

/-! ### Resolver chain and reviewable export (source lines 237–267) -/

/-- Step 3.7: fill a missing postal code from the city/state guess; a row
with a postal code is untouched, and a falsy guess is not assigned
(`if guess:`). -/
def fillPostal (pgaz : List PlaceRow) (r : TeamRow) : TeamRow :=
  match r.postal_code with
  | some _ => r
  | none =>
    match city_state_to_zip_guess pgaz r.city r.state with
    | some z => if z = "" then r else { r with postal_code := some z }
    | none => r

/-- Step 4: `df["county"] = df["postal_code"].apply(zip_to_county)` followed
by `.str.title().str.strip()` (NaN propagates through both). -/
def resolveCounty (zgaz : String → Option String) (r : TeamRow) : TeamRow :=
  { r with county := (zip_to_county zgaz r.postal_code).map canonTitleStrip }

/-- The resolver chain of `main` on the collected rows: fill missing postal
codes, resolve every postal code to a county, write the reviewable export
(first component), then keep only rows with a county (second component). -/
def pipelineStep (pgaz : List PlaceRow) (zgaz : String → Option String)
    (recs : List TeamRow) : List TeamRow × List TeamRow :=
  let filled := recs.map (fillPostal pgaz)
  let reviewExport := filled.map (resolveCounty zgaz)
  (reviewExport, reviewExport.filter (fun r => r.county.isSome))

/-! ### Aggregator (source lines 270–271) -/

/-- Total order on strings by code point, as Python compares strings. -/
def strLeB (a b : String) : Bool :=
  charListLe a.data b.data
where
  charListLe : List Char → List Char → Bool
    | [], _ => true
    | _ :: _, [] => false
    | x :: xs, y :: ys =>
      if x.toNat < y.toNat then true
      else if y.toNat < x.toNat then false
      else charListLe xs ys

/-- Insertion into a sorted list of strings. -/
def insertSorted (a : String) : List String → List String
  | [] => [a]
  | b :: bs => if strLeB a b then a :: b :: bs else b :: insertSorted a bs

/-- Insertion sort on strings (kernel-evaluable model of the sorted key
order pandas and Python `sorted` produce). -/
def sortStrs : List String → List String
  | [] => []
  | a :: as => insertSorted a (sortStrs as)

/-- Remove duplicates keeping first occurrences, with an accumulator of
already-seen strings. -/
def dedupFirstAux (seen : List String) : List String → List String
  | [] => []
  | a :: as =>
    if seen.contains a then dedupFirstAux seen as
    else a :: dedupFirstAux (a :: seen) as

/-- Remove duplicates keeping first occurrences (model of Python `set`
construction once the order is fixed by sorting). -/
def dedupFirst (l : List String) : List String := dedupFirstAux [] l

/-- The group keys of `df.groupby("county")`: the distinct non-NaN county
values, in sorted order (pandas sorts group keys). -/
def groupKeys (rows : List TeamRow) : List String :=
  sortStrs (dedupFirst (rows.filterMap (fun r => r.county)))

/-- `("team_key", "nunique")` for one county group: the number of distinct
team keys among the rows of that group. -/
def nuniqueKeys (rows : List TeamRow) (c : String) : Nat :=
  (dedupFirst ((rows.filter (fun r => r.county == some c)).map (fun r => r.team_key))).length

/-- `df.groupby("county").agg(team_count=("team_key", "nunique"))`. -/
def county_counts_raw (rows : List TeamRow) : List (String × Nat) :=
  (groupKeys rows).map (fun c => (c, nuniqueKeys rows c))

/-- The aggregate after line 271 also rewrites each key with
`str.replace(" County", "", regex=False)`. -/
def county_counts (rows : List TeamRow) : List (String × Nat) :=
  (county_counts_raw rows).map (fun p => (removeCountyAll p.1, p.2))

/-! ### Geometry Joiner (source lines 306–315) -/

/-- The accepted county-name fields of the geometry file (line 307). -/
def NAME_FIELDS : List String := ["NAME", "NAME10", "COUNTYNAME", "county", "County", "Name"]

/-- `gdf_counties.merge(county_counts, on="county", how="left")` followed by
`fillna(0)`: each geometry row in order, paired with every matching count
row in order, or with 0 when no count row matches. -/
def mergeLeft (geoCounties : List String) (counts : List (String × Nat)) : List (String × Nat) :=
  geoCounties.flatMap (fun g =>
    match counts.filter (fun p => p.1 == g) with
    | [] => [(g, 0)]
    | m :: ms => (m :: ms).map (fun p => (g, p.2)))

/-- The loaded geometry table: its column names and, for each column, the
list of its values. -/
structure GeoTable where
  columns : List String
  colVals : String → List String

/-- An event record of the season event list. -/
structure EventInfo where
  key : String
  state_prov : Option String

/-- The external interfaces of one run: the three Blue Alliance fetches and
the geometry load.  `Except.error` models a raised exception
(`raise_for_status`, file errors). -/
structure TBAEnv where
  events : Except String (List EventInfo)
  eventTeams : String → Except String (List String)
  teamDetails : String → Except String TeamDetail
  geo : Except String GeoTable

/-- The Michigan event filter of `get_mi_district_event_keys` (line 112):
`e.get("state_prov") in ("MI", "Michigan")`, an exact comparison. -/
def miEventKeys (evs : List EventInfo) : List String :=
  (evs.filter (fun e => e.state_prov == some "MI" || e.state_prov == some "Michigan")).map
    (fun e => e.key)

/-- Step 2 of `main`: fetch each kept event's roster in order and collect
the team keys; the first raised exception aborts. -/
def collectTeamKeys (env : TBAEnv) : List String → Except String (List String)
  | [] => .ok []
  | ek :: rest =>
    match env.eventTeams ek with
    | .error e => .error e
    | .ok ts =>
      match collectTeamKeys env rest with
      | .error e => .error e
      | .ok more => .ok (ts ++ more)

/-- Step 3 of `main`: fetch details for each team key in order, keeping the
teams whose recorded state passes the Michigan filter; the first raised
exception aborts. -/
def fetchRows (env : TBAEnv) : List String → Except String (List TeamRow)
  | [] => .ok []
  | tk :: rest =>
    match env.teamDetails tk with
    | .error e => .error e
    | .ok d =>
      match fetchRows env rest with
      | .error e => .error e
      | .ok more => .ok ((if stateAccepted d.state_prov then [mkRow tk d] else []) ++ more)

/-- Step 6 of `main`: load the geometry, look for a recognised county-name
field (lines 306–310), raise a `RuntimeError` when none exists, otherwise
canonicalise the name column (line 311). -/
def geoStage (env : TBAEnv) : Except String (List String) :=
  match env.geo with
  | .error e => .error e
  | .ok g =>
    match NAME_FIELDS.find? (fun f => g.columns.contains f) with
    | none => .error "Could not find county name field in county shapefile."
    | some f => .ok ((g.colVals f).map canonTitleStrip)

/-- The pipeline of `main`, from the season event list to the joined
county/count table that the renderer consumes.  Any exception raised by a
fetch or by the geometry stage propagates: `main` installs no handler. -/
def mainE (env : TBAEnv) (pgaz : List PlaceRow) (zgaz : String → Option String) :
    Except String (List (String × Nat)) :=
  match env.events with
  | .error e => .error e
  | .ok evs =>
    match collectTeamKeys env (miEventKeys evs) with
    | .error e => .error e
    | .ok rawKeys =>
      match fetchRows env (sortStrs (dedupFirst rawKeys)) with
      | .error e => .error e
      | .ok rows =>
        match geoStage env with
        | .error e => .error e
        | .ok geos => .ok (mergeLeft geos (county_counts (pipelineStep pgaz zgaz rows).2))

/-- The console entry point (lines 460–469): a successful run exits 0 with
its outputs; an exception is caught, a traceback is printed (second
component), no outputs are produced, and the process exits 1. -/
def consoleRun (env : TBAEnv) (pgaz : List PlaceRow) (zgaz : String → Option String) :
    Nat × Bool × Option (List (String × Nat)) :=
  match mainE env pgaz zgaz with
  | .ok out => (0, false, some out)
  | .error _ => (1, true, none)

/-! ### Spec-stated variants, for comparison with the source functions -/

/-- Modelled from the spec: "strips a trailing County suffix and trims
whitespace from the result" — drop a `"County"` suffix, then trim. -/
def stripTrailingCounty (s : String) : String :=
  if "County".data.isSuffixOf s.data then ⟨s.data.take (s.data.length - 6)⟩ else s

/-- Modelled from the spec claim for `zip_to_county`: look up the first 5
characters of the code as given, and strip only a trailing County suffix. -/
def zip_to_county_claim (gaz : String → Option String) (zipcode : Option String) : Option String :=
  match zipcode with
  | none => none
  | some zc =>
    if zc = "" || zc.length < 5 then none
    else
      match gaz (strTake 5 zc) with
      | none => none
      | some county => some (pyStrip (stripTrailingCounty county))

/-- The behaviour of `zip_to_county` restated (amended claim): reject codes
shorter than 5 characters, look up the first 5 characters of the trimmed
code, and return the county with every `" County"` occurrence removed and
surrounding whitespace trimmed. -/
def zip_to_county_amended (gaz : String → Option String) (zipcode : Option String) : Option String :=
  match zipcode with
  | none => none
  | some zc =>
    if zc.length < 5 then none
    else (gaz (strTake 5 (pyStrip zc))).map (fun county => pyStrip (removeCountyAll county))

/-- Modelled from the spec claim for `guess_zip`: the substring search runs
only if no exact match exists; with an exact match the first matching row's
postal code is the answer. -/
def city_state_to_zip_guess_claim (gaz : List PlaceRow) (city state : Option String) :
    Option String :=
  match city, state with
  | some c, some st =>
    if c = "" || st = "" then none
    else
      let cityLower := pyLower (pyStrip c)
      let stateNorm := stateNormOf st
      match gaz.filter (exactPlaceMatch cityLower stateNorm) with
      | r :: _ => r.postal_code
      | [] =>
        match gaz.filter (substrPlaceMatch cityLower stateNorm) with
        | r :: _ => r.postal_code
        | [] => none
  | _, _ => none

/-- The behaviour of `city_state_to_zip_guess` restated (amended claim): the
first exact match's postal code when an exact match exists and its first
row's postal code is non-null; otherwise the first substring match's postal
code when present and non-null; otherwise none. -/
def city_state_to_zip_guess_amended (gaz : List PlaceRow) (city state : Option String) :
    Option String :=
  match city, state with
  | some c, some st =>
    if c = "" || st = "" then none
    else
      let cityLower := pyLower (pyStrip c)
      let stateNorm := stateNormOf st
      let subAnswer := (gaz.filter (substrPlaceMatch cityLower stateNorm)).head?.bind
        (fun r => r.postal_code)
      match gaz.filter (exactPlaceMatch cityLower stateNorm) with
      | r :: _ =>
        match r.postal_code with
        | some p => some p
        | none => subAnswer
      | [] => subAnswer
  | _, _ => none

/-- A gazetteer refuting the trailing-suffix reading of `zip_to_county`:
the county name for 48104 carries `" County"` in the middle. -/
def gazCounterC3 : String → Option String :=
  fun z => if z = "48104" then some "A County B" else none

/-- A place table refuting the exact-match-first reading of `guess_zip`: the
exact match for Lansing has a NaN postal code, and a substring match earlier
in the table has one. -/
def gazCounterC4 : List PlaceRow :=
  [⟨some "East Lansing", "MI", some "48823"⟩, ⟨some "Lansing", "MI", none⟩]

/-- A concrete environment exercising the collector: one Michigan event with
two teams, one of which is from out of state. -/
def wEnv : TBAEnv where
  events := .ok [⟨"2025miket", some "MI"⟩, ⟨"2025ohcl", some "OH"⟩]
  eventTeams := fun ek => if ek = "2025miket" then .ok ["frc33", "frc254"] else .error "HTTPError"
  teamDetails := fun tk =>
    if tk = "frc33" then
      .ok ⟨some 33, some "Killer Bees", none, some "Auburn Hills", some "MI", some "48326"⟩
    else if tk = "frc254" then
      .ok ⟨some 254, some "Cheesy Poofs", none, some "San Jose", some "CA", some "95112"⟩
    else .error "HTTPError"
  geo := .ok ⟨["NAME"], fun f => if f = "NAME" then ["Wayne", "Oakland"] else []⟩

/-- An environment whose season event list fetch raises. -/
def wEnvFail : TBAEnv where
  events := .error "ConnectionError"
  eventTeams := fun _ => .error "ConnectionError"
  teamDetails := fun _ => .error "ConnectionError"
  geo := .error "ConnectionError"

/-- An environment whose geometry table has no recognised county name
field. -/
def wEnvNoField : TBAEnv where
  events := .ok []
  eventTeams := fun _ => .ok []
  teamDetails := fun _ => .ok ⟨none, none, none, none, none, none⟩
  geo := .ok ⟨["foo"], fun _ => []⟩

/-! ### Character-level lemmas -/

theorem charToNat_ofNat (n : Nat) (h : n < 55296) : (Char.ofNat n).toNat = n := by
  rw [Char.ofNat, dif_pos (Or.inl h)]
  rfl

theorem toUpper_toNat_of_lower (c : Char) (h : 97 ≤ c.toNat ∧ c.toNat ≤ 122) :
    (Char.toUpper c).toNat = c.toNat - 32 := by
  unfold Char.toUpper
  rw [if_pos h, charToNat_ofNat _ (by omega)]

theorem toUpper_eq_of_not_lower (c : Char) (h : ¬(97 ≤ c.toNat ∧ c.toNat ≤ 122)) :
    Char.toUpper c = c := by
  unfold Char.toUpper
  rw [if_neg h]

theorem toLower_toNat_of_upper (c : Char) (h : 65 ≤ c.toNat ∧ c.toNat ≤ 90) :
    (Char.toLower c).toNat = c.toNat + 32 := by
  unfold Char.toLower
  rw [if_pos h, charToNat_ofNat _ (by omega)]

theorem toLower_eq_of_not_upper (c : Char) (h : ¬(65 ≤ c.toNat ∧ c.toNat ≤ 90)) :
    Char.toLower c = c := by
  unfold Char.toLower
  rw [if_neg h]

theorem isAsciiAlpha_iff (c : Char) :
    isAsciiAlpha c = true ↔ (65 ≤ c.toNat ∧ c.toNat ≤ 90) ∨ (97 ≤ c.toNat ∧ c.toNat ≤ 122) := by
  simp [isAsciiAlpha, Bool.or_eq_true, Bool.and_eq_true, decide_eq_true_eq]

theorem isPySpace_iff (c : Char) :
    isPySpace c = true ↔
      c.toNat = 32 ∨ c.toNat = 9 ∨ c.toNat = 10 ∨ c.toNat = 13 ∨ c.toNat = 11 ∨ c.toNat = 12 := by
  simp [isPySpace, Bool.or_eq_true, decide_eq_true_eq]
  tauto

theorem toUpper_toNat_mem (c : Char) (h : isAsciiAlpha c = true) :
    65 ≤ (Char.toUpper c).toNat ∧ (Char.toUpper c).toNat ≤ 90 := by
  rcases (isAsciiAlpha_iff c).1 h with h' | h'
  · rw [toUpper_eq_of_not_lower c (by omega)]; exact h'
  · rw [toUpper_toNat_of_lower c h']; omega

theorem toLower_toNat_mem (c : Char) (h : isAsciiAlpha c = true) :
    97 ≤ (Char.toLower c).toNat ∧ (Char.toLower c).toNat ≤ 122 := by
  rcases (isAsciiAlpha_iff c).1 h with h' | h'
  · rw [toLower_toNat_of_upper c h']; omega
  · rw [toLower_eq_of_not_upper c (by omega)]; exact h'

theorem titleChar_isAlpha (b : Bool) (c : Char) : isAsciiAlpha (titleChar b c) = isAsciiAlpha c := by
  unfold titleChar
  by_cases h : isAsciiAlpha c = true
  · rw [if_pos h, h]
    cases b with
    | true =>
      rw [if_pos rfl]
      exact (isAsciiAlpha_iff _).2 (Or.inr (toLower_toNat_mem c h))
    | false =>
      rw [if_neg Bool.false_ne_true]
      exact (isAsciiAlpha_iff _).2 (Or.inl (toUpper_toNat_mem c h))
  · rw [if_neg h]

theorem titleChar_isSpace (b : Bool) (c : Char) : isPySpace (titleChar b c) = isPySpace c := by
  unfold titleChar
  by_cases h : isAsciiAlpha c = true
  · rw [if_pos h]
    have hc := (isAsciiAlpha_iff c).1 h
    have hcs : isPySpace c = false := by
      rw [← Bool.not_eq_true]
      intro hs
      have := (isPySpace_iff c).1 hs
      omega
    rw [hcs]
    cases b with
    | true =>
      rw [if_pos rfl]
      rw [← Bool.not_eq_true]
      intro hs
      have := (isPySpace_iff _).1 hs
      have := toLower_toNat_mem c h
      omega
    | false =>
      rw [if_neg Bool.false_ne_true]
      rw [← Bool.not_eq_true]
      intro hs
      have := (isPySpace_iff _).1 hs
      have := toUpper_toNat_mem c h
      omega
  · rw [if_neg h]

theorem isPySpace_not_alpha (c : Char) (h : isPySpace c = true) : isAsciiAlpha c = false := by
  rw [← Bool.not_eq_true]
  intro ha
  have := (isPySpace_iff c).1 h
  have := (isAsciiAlpha_iff c).1 ha
  omega

theorem titleChar_titleChar (b : Bool) (c : Char) : titleChar b (titleChar b c) = titleChar b c := by
  by_cases h : isAsciiAlpha c = true
  · cases b with
    | true =>
      have e1 : titleChar true c = Char.toLower c := by
        unfold titleChar
        rw [if_pos h, if_pos rfl]
      have h2 : isAsciiAlpha (Char.toLower c) = true :=
        (isAsciiAlpha_iff _).2 (Or.inr (toLower_toNat_mem c h))
      rw [e1]
      unfold titleChar
      rw [if_pos h2, if_pos rfl]
      exact toLower_eq_of_not_upper _ (by have := toLower_toNat_mem c h; omega)
    | false =>
      have e1 : titleChar false c = Char.toUpper c := by
        unfold titleChar
        rw [if_pos h, if_neg Bool.false_ne_true]
      have h2 : isAsciiAlpha (Char.toUpper c) = true :=
        (isAsciiAlpha_iff _).2 (Or.inl (toUpper_toNat_mem c h))
      rw [e1]
      unfold titleChar
      rw [if_pos h2, if_neg Bool.false_ne_true]
      exact toUpper_eq_of_not_lower _ (by have := toUpper_toNat_mem c h; omega)
  · unfold titleChar
    rw [if_neg h, if_neg h]

/-! ### Title-case and strip lemmas -/

theorem titleAux_cons (b : Bool) (c : Char) (cs : List Char) :
    titleAux b (c :: cs) = titleChar b c :: titleAux (isAsciiAlpha c) cs := rfl

theorem titleAux_idem (l : List Char) : ∀ b, titleAux b (titleAux b l) = titleAux b l := by
  induction l with
  | nil => intro b; rfl
  | cons c cs ih =>
    intro b
    rw [titleAux_cons, titleAux_cons, titleChar_titleChar, titleChar_isAlpha, ih]

theorem lstripL_cons_pos (c : Char) (cs : List Char) (h : isPySpace c = true) :
    lstripL (c :: cs) = lstripL cs := by
  unfold lstripL
  exact List.dropWhile_cons_of_pos h

theorem lstripL_cons_neg (c : Char) (cs : List Char) (h : isPySpace c = false) :
    lstripL (c :: cs) = c :: cs := by
  unfold lstripL
  exact List.dropWhile_cons_of_neg (by rw [h]; exact Bool.false_ne_true)

theorem lstrip_titleAux (l : List Char) : lstripL (titleAux false l) = titleAux false (lstripL l) := by
  induction l with
  | nil => rfl
  | cons c cs ih =>
    by_cases h : isPySpace c = true
    · have hs : isPySpace (titleChar false c) = true := by rw [titleChar_isSpace]; exact h
      have ha : isAsciiAlpha c = false := isPySpace_not_alpha c h
      rw [titleAux_cons, lstripL_cons_pos _ _ hs, ha, ih, lstripL_cons_pos _ _ h]
    · have h' : isPySpace c = false := Bool.eq_false_iff.2 h
      have hs : isPySpace (titleChar false c) = false := by rw [titleChar_isSpace]; exact h'
      rw [titleAux_cons, lstripL_cons_neg _ _ hs, lstripL_cons_neg _ _ h', titleAux_cons]

theorem rstripL_cons (c : Char) (cs : List Char) :
    rstripL (c :: cs) =
      match rstripL cs with
      | [] => if isPySpace c then [] else [c]
      | d :: ds => c :: d :: ds := rfl

theorem rstrip_titleAux (l : List Char) : ∀ b, rstripL (titleAux b l) = titleAux b (rstripL l) := by
  induction l with
  | nil => intro b; rfl
  | cons c cs ih =>
    intro b
    rw [titleAux_cons, rstripL_cons, ih, rstripL_cons]
    cases hr : rstripL cs with
    | nil =>
      show (if isPySpace (titleChar b c) then [] else [titleChar b c]) =
        titleAux b (if isPySpace c then [] else [c])
      rw [titleChar_isSpace]
      by_cases h : isPySpace c = true
      · rw [h]
        rfl
      · rw [Bool.eq_false_iff.2 h]
        rfl
    | cons d ds =>
      rw [titleAux_cons]
      rfl

theorem lstripL_idem (l : List Char) : lstripL (lstripL l) = lstripL l := by
  unfold lstripL
  exact (List.dropWhile_idempotent ..)

theorem rstripL_idem (l : List Char) : rstripL (rstripL l) = rstripL l := by
  induction l with
  | nil => rfl
  | cons c cs ih =>
    rw [rstripL_cons]
    cases hr : rstripL cs with
    | nil =>
      by_cases h : isPySpace c = true
      · rw [h]
        rfl
      · rw [Bool.eq_false_iff.2 h]
        show rstripL [c] = [c]
        rw [rstripL_cons]
        show (if isPySpace c then [] else [c]) = [c]
        rw [Bool.eq_false_iff.2 h]
        rfl
    | cons d ds =>
      rw [rstripL_cons]
      rw [hr] at ih
      rw [ih]

theorem rstripL_nil_or_head (c : Char) (cs : List Char) :
    rstripL (c :: cs) = [] ∨ ∃ r, rstripL (c :: cs) = c :: r := by
  rw [rstripL_cons]
  cases rstripL cs with
  | nil =>
    by_cases h : isPySpace c = true
    · rw [h]; exact Or.inl rfl
    · rw [Bool.eq_false_iff.2 h]
      exact Or.inr ⟨[], rfl⟩
  | cons d ds => exact Or.inr ⟨d :: ds, rfl⟩

theorem lstripL_head_not_space (l : List Char) (c : Char) (cs : List Char)
    (h : lstripL l = c :: cs) : isPySpace c = false := by
  induction l with
  | nil => exact absurd h (by simp [lstripL])
  | cons a as ih =>
    by_cases ha : isPySpace a = true
    · rw [lstripL_cons_pos _ _ ha] at h
      exact ih h
    · have ha' : isPySpace a = false := Bool.eq_false_iff.2 ha
      rw [lstripL_cons_neg _ _ ha'] at h
      injection h with h1 h2
      rw [← h1]
      exact ha'

theorem pyStripL_idem (l : List Char) : pyStripL (pyStripL l) = pyStripL l := by
  unfold pyStripL
  cases h : rstripL (lstripL l) with
  | nil => rfl
  | cons c cs =>
    have hl : isPySpace c = false := by
      cases hls : lstripL l with
      | nil => rw [hls] at h; exact absurd h (by simp [rstripL])
      | cons a as =>
        rw [hls] at h
        rcases rstripL_nil_or_head a as with h2 | ⟨r, h2⟩
        · rw [h2] at h; cases h
        · rw [h2] at h
          injection h with h1 h3
          rw [← h1]
          exact lstripL_head_not_space l a as hls
    rw [lstripL_cons_neg _ _ hl, ← h, rstripL_idem]

theorem pyStripL_titleAux (l : List Char) :
    pyStripL (titleAux false l) = titleAux false (pyStripL l) := by
  unfold pyStripL
  rw [lstrip_titleAux, rstrip_titleAux]

theorem canonTitleStrip_idem (s : String) :
    canonTitleStrip (canonTitleStrip s) = canonTitleStrip s := by
  show String.mk (pyStripL (titleAux false (pyStripL (titleAux false s.data)))) =
    String.mk (pyStripL (titleAux false s.data))
  rw [pyStripL_titleAux, pyStripL_idem, pyStripL_titleAux, titleAux_idem]

/-! ### removeCounty and dedup/sort lemmas -/

theorem removeCountyAux_of_not_contains (l : List Char) (h : containsCounty l = false) :
    removeCountyAux l = l := by
  induction l using removeCountyAux.induct with
  | case1 rest => exact absurd h (by rw [containsCounty]; simp)
  | case2 c cs hne ih =>
    rw [containsCounty] at h
    · rw [removeCountyAux]
      · rw [ih h]
      · exact hne
    · exact hne
  | case3 => rfl

theorem removeCountyAll_of_not_contains (s : String) (h : containsCounty s.data = false) :
    removeCountyAll s = s := by
  show String.mk (removeCountyAux s.data) = s
  rw [removeCountyAux_of_not_contains s.data h]

/-! ### dedup, sort and lookup lemmas -/

theorem containsS_iff (l : List String) (a : String) : l.contains a = true ↔ a ∈ l := by
  simp [List.contains]

theorem mem_dedupFirstAux (x : String) (l : List String) :
    ∀ seen, x ∈ dedupFirstAux seen l ↔ x ∈ l ∧ x ∉ seen := by
  induction l with
  | nil => intro seen; simp [dedupFirstAux]
  | cons a as ih =>
    intro seen
    by_cases h : seen.contains a = true
    · rw [dedupFirstAux, if_pos h, ih]
      have ha : a ∈ seen := (containsS_iff seen a).1 h
      constructor
      · rintro ⟨h1, h2⟩
        exact ⟨List.mem_cons_of_mem a h1, h2⟩
      · rintro ⟨h1, h2⟩
        rcases List.mem_cons.1 h1 with rfl | h1
        · exact absurd ha h2
        · exact ⟨h1, h2⟩
    · rw [dedupFirstAux, if_neg h, List.mem_cons, ih]
      constructor
      · rintro (rfl | ⟨h1, h2⟩)
        · refine ⟨List.mem_cons_self x as, ?_⟩
          intro hx
          exact h ((containsS_iff seen x).2 hx)
        · refine ⟨List.mem_cons_of_mem a h1, ?_⟩
          intro hx
          exact h2 (List.mem_cons_of_mem a hx)
      · rintro ⟨h1, h2⟩
        rcases List.mem_cons.1 h1 with rfl | h1
        · exact Or.inl rfl
        · by_cases hxa : x = a
          · exact Or.inl hxa
          · refine Or.inr ⟨h1, ?_⟩
            intro hx
            rcases List.mem_cons.1 hx with h3 | h3
            · exact hxa h3
            · exact h2 h3

theorem mem_dedupFirst (x : String) (l : List String) : x ∈ dedupFirst l ↔ x ∈ l := by
  rw [dedupFirst, mem_dedupFirstAux]
  simp

theorem dedupFirstAux_append_mem (a : String) (l : List String) :
    ∀ seen, a ∈ l ∨ a ∈ seen → dedupFirstAux seen (l ++ [a]) = dedupFirstAux seen l := by
  induction l with
  | nil =>
    intro seen h
    rcases h with h | h
    · cases h
    · show dedupFirstAux seen [a] = dedupFirstAux seen []
      rw [show dedupFirstAux seen ([] : List String) = [] from rfl]
      rw [dedupFirstAux, if_pos ((containsS_iff seen a).2 h)]
      rfl
  | cons b bs ih =>
    intro seen h
    show dedupFirstAux seen (b :: (bs ++ [a])) = dedupFirstAux seen (b :: bs)
    by_cases hb : seen.contains b = true
    · rw [dedupFirstAux, if_pos hb, dedupFirstAux, if_pos hb]
      apply ih
      rcases h with h | h
      · rcases List.mem_cons.1 h with rfl | h
        · exact Or.inr ((containsS_iff seen a).1 hb)
        · exact Or.inl h
      · exact Or.inr h
    · rw [dedupFirstAux, if_neg hb, dedupFirstAux, if_neg hb]
      congr 1
      apply ih
      rcases h with h | h
      · rcases List.mem_cons.1 h with rfl | h
        · exact Or.inr (List.mem_cons_self a _)
        · exact Or.inl h
      · exact Or.inr (List.mem_cons_of_mem b h)

theorem dedupFirst_append_mem (a : String) (l : List String) (h : a ∈ l) :
    dedupFirst (l ++ [a]) = dedupFirst l :=
  dedupFirstAux_append_mem a l [] (Or.inl h)

theorem nodup_dedupFirstAux (l : List String) : ∀ seen, (dedupFirstAux seen l).Nodup := by
  induction l with
  | nil => intro seen; exact List.nodup_nil
  | cons a as ih =>
    intro seen
    by_cases h : seen.contains a = true
    · rw [dedupFirstAux, if_pos h]
      exact ih seen
    · rw [dedupFirstAux, if_neg h]
      refine List.Nodup.cons ?_ (ih (a :: seen))
      intro hmem
      exact ((mem_dedupFirstAux a as (a :: seen)).1 hmem).2 (List.mem_cons_self a seen)

theorem nodup_dedupFirst (l : List String) : (dedupFirst l).Nodup := nodup_dedupFirstAux l []

theorem length_dedupFirst_eq_card (l : List String) :
    (dedupFirst l).length = l.toFinset.card := by
  have h1 : (dedupFirst l).toFinset = l.toFinset := by
    ext x
    simp [List.mem_toFinset, mem_dedupFirst]
  rw [← h1, List.toFinset_card_of_nodup (nodup_dedupFirst l)]

theorem mem_insertSorted (x a : String) (l : List String) :
    x ∈ insertSorted a l ↔ x = a ∨ x ∈ l := by
  induction l with
  | nil => simp [insertSorted]
  | cons b bs ih =>
    rw [insertSorted]
    by_cases h : strLeB a b = true
    · rw [if_pos h]
      simp [List.mem_cons]
    · rw [if_neg h, List.mem_cons, ih, List.mem_cons]
      tauto

theorem mem_sortStrs (x : String) (l : List String) : x ∈ sortStrs l ↔ x ∈ l := by
  induction l with
  | nil => simp [sortStrs]
  | cons a as ih =>
    rw [sortStrs, mem_insertSorted, ih, List.mem_cons]

theorem lookup_map_pair (f : String → Nat) (c : String) (l : List String) (h : c ∈ l) :
    (l.map (fun k => (k, f k))).lookup c = some (f c) := by
  induction l with
  | nil => cases h
  | cons a as ih =>
    rw [List.map_cons, List.lookup_cons]
    by_cases hc : c = a
    · subst hc
      simp
    · rw [show (c == a) = false from by simp [hc]]
      rcases List.mem_cons.1 h with rfl | h2
      · exact absurd rfl hc
      · exact ih h2

/-! ### Claim C3 -/

/-- C3 counterexample: on the code `" 48104"` (leading space, 6 characters)
with a gazetteer county `"A County B"`, `zip_to_county` looks up the first 5
characters of the trimmed code and removes a non-trailing `" County"`,
returning `"A B"`, while the claim as stated (first 5 characters of the code
as given, trailing suffix only) yields `none`. -/
theorem c3_counterexample :
    zip_to_county gazCounterC3 (some " 48104") = some "A B" ∧
    zip_to_county_claim gazCounterC3 (some " 48104") = none ∧
    zip_to_county gazCounterC3 (some " 48104") ≠
      zip_to_county_claim gazCounterC3 (some " 48104") := by
  refine ⟨by decide, by decide, by decide⟩

/-- C3 amended: `zip_to_county` returns none when the postal code is absent
or shorter than 5 characters; otherwise it looks up the first 5 characters
of the whitespace-trimmed code, returns none when the gazetteer has no
county for it, and otherwise returns the county name with every occurrence
of the substring `" County"` removed and surrounding whitespace trimmed. -/
theorem c3_zip_to_county_amended (gaz : String → Option String) (zipcode : Option String) :
    zip_to_county gaz zipcode = zip_to_county_amended gaz zipcode := by
  unfold zip_to_county zip_to_county_amended
  cases zipcode with
  | none => rfl
  | some zc =>
    dsimp only
    by_cases he : zc = ""
    · subst he
      rfl
    · rw [show (zc = "" || zc.length < 5 : Bool) = (zc.length < 5 : Bool) from by
        simp [he]]
      by_cases hl : zc.length < 5
      · rw [if_pos (by simpa using hl), if_pos (by simpa using hl)]
      · rw [if_neg (by simpa using hl), if_neg (by simpa using hl)]
        cases gaz (strTake 5 (pyStrip zc)) with
        | none => rfl
        | some county => rfl

/-! ### Claim C4 -/

/-- C4 counterexample: querying `("Lansing", "MI")` against a table whose
exact match (`"Lansing"`) has a NaN postal code, the source falls through to
the substring search and returns East Lansing's postal code, while the
claim as stated (substring search only if no exact match exists) keeps the
exact match's (absent) postal code. -/
theorem c4_counterexample :
    city_state_to_zip_guess gazCounterC4 (some "Lansing") (some "MI") = some "48823" ∧
    city_state_to_zip_guess_claim gazCounterC4 (some "Lansing") (some "MI") = none ∧
    city_state_to_zip_guess gazCounterC4 (some "Lansing") (some "MI") ≠
      city_state_to_zip_guess_claim gazCounterC4 (some "Lansing") (some "MI") := by
  refine ⟨by decide, by decide, by decide⟩

/-- C4 amended: `city_state_to_zip_guess` returns none when city or state is
missing; otherwise it normalises the state (strip, upper-case, Michigan →
MI), searches for an exact case-insensitive place match first and uses the
substring search both when no exact match exists and when the first exact
match's postal code is null, returning the first such postal code or none;
every returned postal code comes from a gazetteer row. -/
theorem c4_guess_amended (gaz : List PlaceRow) (city state : Option String) :
    city_state_to_zip_guess gaz city state = city_state_to_zip_guess_amended gaz city state ∧
    (∀ p, city_state_to_zip_guess gaz city state = some p →
      ∃ r ∈ gaz, r.postal_code = some p) := by
  constructor
  · unfold city_state_to_zip_guess city_state_to_zip_guess_amended guessSearchBody
    cases city with
    | none => cases state <;> rfl
    | some c =>
      cases state with
      | none => rfl
      | some st =>
        dsimp only
        by_cases h : (c = "" || st = "" : Bool) = true
        · rw [if_pos h, if_pos h]
        · rw [if_neg h, if_neg h]
          cases hsub : gaz.filter (substrPlaceMatch (pyLower (pyStrip c)) (stateNormOf st)) with
          | nil =>
            cases hex : gaz.filter (exactPlaceMatch (pyLower (pyStrip c)) (stateNormOf st)) with
            | nil => rfl
            | cons r rest => cases r.postal_code <;> rfl
          | cons r2 rest2 =>
            cases hex : gaz.filter (exactPlaceMatch (pyLower (pyStrip c)) (stateNormOf st)) with
            | nil => rfl
            | cons r rest => cases r.postal_code <;> rfl
  · intro p hp
    unfold city_state_to_zip_guess guessSearchBody at hp
    cases city with
    | none => cases state <;> cases hp
    | some c =>
      cases state with
      | none => cases hp
      | some st =>
        dsimp only at hp
        by_cases h : (c = "" || st = "" : Bool) = true
        · rw [if_pos h] at hp
          cases hp
        · rw [if_neg h] at hp
          have hsubmem : ∀ q rest2,
              gaz.filter (substrPlaceMatch (pyLower (pyStrip c)) (stateNormOf st)) = q :: rest2 →
              q ∈ gaz := by
            intro q rest2 hf
            have : q ∈ gaz.filter (substrPlaceMatch (pyLower (pyStrip c)) (stateNormOf st)) := by
              rw [hf]; exact List.mem_cons_self q rest2
            exact (List.mem_filter.1 this).1
          cases hex : gaz.filter (exactPlaceMatch (pyLower (pyStrip c)) (stateNormOf st)) with
          | nil =>
            rw [hex] at hp
            dsimp only at hp
            cases hsub : gaz.filter (substrPlaceMatch (pyLower (pyStrip c)) (stateNormOf st)) with
            | nil => rw [hsub] at hp; cases hp
            | cons q rest2 =>
              rw [hsub] at hp
              exact ⟨q, hsubmem q rest2 hsub, hp⟩
          | cons r rest =>
            rw [hex] at hp
            dsimp only at hp
            have hrmem : r ∈ gaz := by
              have : r ∈ gaz.filter (exactPlaceMatch (pyLower (pyStrip c)) (stateNormOf st)) := by
                rw [hex]; exact List.mem_cons_self r rest
              exact (List.mem_filter.1 this).1
            cases hrp : r.postal_code with
            | some p2 =>
              rw [hrp] at hp
              dsimp only at hp
              cases hp
              exact ⟨r, hrmem, hrp⟩
            | none =>
              rw [hrp] at hp
              dsimp only at hp
              cases hsub : gaz.filter (substrPlaceMatch (pyLower (pyStrip c)) (stateNormOf st)) with
              | nil => rw [hsub] at hp; cases hp
              | cons q rest2 =>
                rw [hsub] at hp
                exact ⟨q, hsubmem q rest2 hsub, hp⟩

/-- C4 witness: the amended description agrees with the source on a concrete
query, and the returned postal code is a gazetteer entry. -/
theorem c4_witness :
    city_state_to_zip_guess gazCounterC4 (some "Lansing") (some "MI")
      = city_state_to_zip_guess_amended gazCounterC4 (some "Lansing") (some "MI") ∧
    ∃ r ∈ gazCounterC4, r.postal_code = some "48823" :=
  ⟨(c4_guess_amended gazCounterC4 (some "Lansing") (some "MI")).1,
    (c4_guess_amended gazCounterC4 (some "Lansing") (some "MI")).2 "48823" (by decide)⟩

/-! ### Claim C5 -/

/-- C5 counterexample: the two join sides do not canonicalise identically —
on `"Wayne County"` the aggregate-key transformation yields `"Wayne"` while
the geometry-side cleaning yields `"Wayne County"`, so the claimed common
canonical form does not exist. -/
theorem c5_counterexample :
    canonAggKey "Wayne County" = "Wayne" ∧
    canonTitleStrip "Wayne County" = "Wayne County" ∧
    canonAggKey "Wayne County" ≠ canonTitleStrip "Wayne County" := by
  refine ⟨by decide, by decide, by decide⟩

/-- C5 amended: the title-case + trim cleaning shared by both sides is
idempotent; the `" County"` removal is applied only to the aggregate keys,
and on strings whose cleaned form does not contain `" County"` the aggregate
key coincides with the geometry-side canonical form. -/
theorem c5_canonicalisation_amended :
    (∀ s, canonTitleStrip (canonTitleStrip s) = canonTitleStrip s) ∧
    (∀ s, containsCounty (canonTitleStrip s).data = false →
      canonAggKey s = canonTitleStrip s) := by
  refine ⟨canonTitleStrip_idem, ?_⟩
  intro s h
  unfold canonAggKey
  exact removeCountyAll_of_not_contains _ h

/-- C5 witness: idempotence and the County-free agreement at `" wAYNE "`. -/
theorem c5_witness :
    canonTitleStrip (canonTitleStrip " wAYNE ") = canonTitleStrip " wAYNE " ∧
    canonAggKey " wAYNE " = canonTitleStrip " wAYNE " :=
  ⟨c5_canonicalisation_amended.1 " wAYNE ",
    c5_canonicalisation_amended.2 " wAYNE " (by decide)⟩

/-! ### Claim C10 -/

/-- C10: `city_state_to_zip_guess` is total at its interface.  Falsy inputs
are answered `none` before the `try` block; a raised exception inside the
gazetteer search is caught by the bare `except` and answered `none`; and
when the search body runs without raising, the function computes exactly the
pure two-phase search. -/
theorem c10_guess_total (search : String → String → Except String (Option String))
    (city state : Option String) :
    (∀ c st e, city = some c → state = some st → search c st = .error e →
      city_state_to_zip_guessE search city state = none) ∧
    (∀ gaz, city_state_to_zip_guessE (fun c st => .ok (guessSearchBody gaz c st)) city state
      = city_state_to_zip_guess gaz city state) := by
  constructor
  · intro c st e hc hs hf
    subst hc
    subst hs
    unfold city_state_to_zip_guessE
    dsimp only
    by_cases h : (c = "" || st = "" : Bool) = true
    · rw [if_pos h]
    · rw [if_neg h, hf]
  · intro gaz
    cases city with
    | none => cases state <;> rfl
    | some c =>
      cases state with
      | none => rfl
      | some st => rfl

/-- C10 witness: a raising search is answered `none`, and the wrapped pure
search agrees with the pure function on a concrete query. -/
theorem c10_witness :
    city_state_to_zip_guessE (fun _ _ => .error "KeyError") (some "Detroit") (some "MI") = none ∧
    city_state_to_zip_guessE (fun c st => .ok (guessSearchBody gazCounterC4 c st))
      (some "Lansing") (some "MI") = city_state_to_zip_guess gazCounterC4 (some "Lansing") (some "MI") :=
  ⟨(c10_guess_total (fun _ _ => .error "KeyError") (some "Detroit") (some "MI")).1
      "Detroit" "MI" "KeyError" rfl rfl rfl,
    (c10_guess_total (fun c st => .ok (guessSearchBody gazCounterC4 c st))
      (some "Lansing") (some "MI")).2 gazCounterC4⟩

/-! ### Claim C1 -/

/-- C1: appending a row whose (team_key, county) pair is already present
leaves every aggregate count unchanged, and each per-county count is the
number of distinct team keys among the rows resolved to that county. -/
theorem c1_aggregate_dedup (rows : List TeamRow) (r r' : TeamRow)
    (hmem : r' ∈ rows) (hkey : r'.team_key = r.team_key) (hcounty : r'.county = r.county) :
    county_counts (rows ++ [r]) = county_counts rows ∧
    (∀ c, c ∈ groupKeys rows →
      (county_counts_raw rows).lookup c = some (nuniqueKeys rows c) ∧
      nuniqueKeys rows c =
        ((rows.filter (fun row => row.county == some c)).map
          (fun row => row.team_key)).toFinset.card) := by
  have hgroup : groupKeys (rows ++ [r]) = groupKeys rows := by
    unfold groupKeys
    rw [List.filterMap_append]
    cases hrc : r.county with
    | none =>
      rw [show (List.filterMap (fun row => row.county) [r]) = [] from by simp [hrc]]
      rw [List.append_nil]
    | some c =>
      rw [show (List.filterMap (fun row => row.county) [r]) = [c] from by simp [hrc]]
      have hc' : c ∈ rows.filterMap (fun row => row.county) :=
        List.mem_filterMap.2 ⟨r', hmem, by rw [hcounty, hrc]⟩
      rw [dedupFirst_append_mem c _ hc']
  have hnun : ∀ c, nuniqueKeys (rows ++ [r]) c = nuniqueKeys rows c := by
    intro c
    unfold nuniqueKeys
    rw [List.filter_append]
    by_cases hrc : (r.county == some c) = true
    · rw [show (List.filter (fun row => row.county == some c) [r]) = [r] from by
        simp [List.filter, hrc]]
      rw [List.map_append]
      have hkeymem : r.team_key ∈
          (rows.filter (fun row => row.county == some c)).map (fun row => row.team_key) :=
        List.mem_map.2 ⟨r', List.mem_filter.2 ⟨hmem, by rw [hcounty]; exact hrc⟩, hkey⟩
      rw [show (List.map (fun row => row.team_key) [r]) = [r.team_key] from rfl]
      rw [dedupFirst_append_mem _ _ hkeymem]
    · rw [show (List.filter (fun row => row.county == some c) [r]) = [] from by
        simp [List.filter, hrc]]
      rw [List.append_nil]
  constructor
  · unfold county_counts county_counts_raw
    rw [hgroup]
    rw [show (fun c => (c, nuniqueKeys (rows ++ [r]) c)) = (fun c => (c, nuniqueKeys rows c)) from
      funext fun c => by rw [hnun c]]
  · intro c hc
    constructor
    · exact lookup_map_pair (nuniqueKeys rows) c (groupKeys rows) hc
    · unfold nuniqueKeys
      exact length_dedupFirst_eq_card _

/-- C1 witness: two rows with team key frc254 and county Wayne, from
different fetches, contribute one; counts match the distinct-key cardinal. -/
theorem c1_witness :
    county_counts ([⟨"frc254", none, none, none, none, none, some "Wayne"⟩,
        ⟨"frc33", none, none, none, none, none, some "Oakland"⟩] ++
      [⟨"frc254", some 254, none, none, none, none, some "Wayne"⟩]) =
      county_counts [⟨"frc254", none, none, none, none, none, some "Wayne"⟩,
        ⟨"frc33", none, none, none, none, none, some "Oakland"⟩] ∧
    ((county_counts_raw [⟨"frc254", none, none, none, none, none, some "Wayne"⟩,
        ⟨"frc33", none, none, none, none, none, some "Oakland"⟩]).lookup "Wayne" =
      some (nuniqueKeys [⟨"frc254", none, none, none, none, none, some "Wayne"⟩,
        ⟨"frc33", none, none, none, none, none, some "Oakland"⟩] "Wayne") ∧
      nuniqueKeys [⟨"frc254", none, none, none, none, none, some "Wayne"⟩,
        ⟨"frc33", none, none, none, none, none, some "Oakland"⟩] "Wayne" =
        ((([⟨"frc254", none, none, none, none, none, some "Wayne"⟩,
          ⟨"frc33", none, none, none, none, none, some "Oakland"⟩] : List TeamRow).filter
            (fun row => row.county == some "Wayne")).map
          (fun row => row.team_key)).toFinset.card) :=
  ⟨(c1_aggregate_dedup
      [⟨"frc254", none, none, none, none, none, some "Wayne"⟩,
        ⟨"frc33", none, none, none, none, none, some "Oakland"⟩]
      ⟨"frc254", some 254, none, none, none, none, some "Wayne"⟩
      ⟨"frc254", none, none, none, none, none, some "Wayne"⟩ (by decide) rfl rfl).1,
    (c1_aggregate_dedup
      [⟨"frc254", none, none, none, none, none, some "Wayne"⟩,
        ⟨"frc33", none, none, none, none, none, some "Oakland"⟩]
      ⟨"frc254", some 254, none, none, none, none, some "Wayne"⟩
      ⟨"frc254", none, none, none, none, none, some "Wayne"⟩ (by decide) rfl rfl).2 "Wayne"
      (by decide)⟩

/-! ### Claim C6 -/

/-- C6: the resolver chain fills missing postal codes first (existing ones
are untouched), resolves every record's (original or guessed) postal code to
a county, exports one reviewable row per collected record — unresolved ones
included — and only after that export drops the rows without a county. -/
theorem c6_resolver_chain (pgaz : List PlaceRow) (zgaz : String → Option String)
    (recs : List TeamRow) :
    (pipelineStep pgaz zgaz recs).1.length = recs.length ∧
    (∀ i : Nat, (pipelineStep pgaz zgaz recs).1[i]? =
      (recs[i]?).map (fun r => resolveCounty zgaz (fillPostal pgaz r))) ∧
    (∀ r : TeamRow, r.postal_code.isSome = true →
      (fillPostal pgaz r).postal_code = r.postal_code) ∧
    (pipelineStep pgaz zgaz recs).2 =
      (pipelineStep pgaz zgaz recs).1.filter (fun r => r.county.isSome) := by
  refine ⟨?_, ?_, ?_, rfl⟩
  · show ((recs.map (fillPostal pgaz)).map (resolveCounty zgaz)).length = recs.length
    rw [List.length_map, List.length_map]
  · intro i
    show ((recs.map (fillPostal pgaz)).map (resolveCounty zgaz))[i]? = _
    rw [List.getElem?_map, List.getElem?_map, Option.map_map]
    rfl
  · intro r h
    unfold fillPostal
    cases hr : r.postal_code with
    | none => rw [hr] at h; cases h
    | some z =>
      rw [hr]

/-- C6 witness: a two-record pipeline — one record with a postal code kept
as is, one missing and unresolvable — exports both rows and keeps one. -/
theorem c6_witness :
    (pipelineStep gazCounterC4 gazCounterC3
        [⟨"frc1", none, none, none, none, some "48104", none⟩,
         ⟨"frc2", none, none, some "Nowhere", some "MI", none, none⟩]).1.length = 2 ∧
    (pipelineStep gazCounterC4 gazCounterC3
        [⟨"frc1", none, none, none, none, some "48104", none⟩,
         ⟨"frc2", none, none, some "Nowhere", some "MI", none, none⟩]).1[0]? =
      (([⟨"frc1", none, none, none, none, some "48104", none⟩,
         ⟨"frc2", none, none, some "Nowhere", some "MI", none, none⟩] :
          List TeamRow)[0]?).map
        (fun r => resolveCounty gazCounterC3 (fillPostal gazCounterC4 r)) ∧
    (fillPostal gazCounterC4 ⟨"frc1", none, none, none, none, some "48104", none⟩).postal_code =
      some "48104" ∧
    (pipelineStep gazCounterC4 gazCounterC3
        [⟨"frc1", none, none, none, none, some "48104", none⟩,
         ⟨"frc2", none, none, some "Nowhere", some "MI", none, none⟩]).2 =
      (pipelineStep gazCounterC4 gazCounterC3
        [⟨"frc1", none, none, none, none, some "48104", none⟩,
         ⟨"frc2", none, none, some "Nowhere", some "MI", none, none⟩]).1.filter
        (fun r => r.county.isSome) :=
  ⟨(c6_resolver_chain gazCounterC4 gazCounterC3
      [⟨"frc1", none, none, none, none, some "48104", none⟩,
        ⟨"frc2", none, none, some "Nowhere", some "MI", none, none⟩]).1,
    (c6_resolver_chain gazCounterC4 gazCounterC3
      [⟨"frc1", none, none, none, none, some "48104", none⟩,
        ⟨"frc2", none, none, some "Nowhere", some "MI", none, none⟩]).2.1 0,
    (c6_resolver_chain gazCounterC4 gazCounterC3
      [⟨"frc1", none, none, none, none, some "48104", none⟩,
        ⟨"frc2", none, none, some "Nowhere", some "MI", none, none⟩]).2.2.1
      ⟨"frc1", none, none, none, none, some "48104", none⟩ (by decide),
    (c6_resolver_chain gazCounterC4 gazCounterC3
      [⟨"frc1", none, none, none, none, some "48104", none⟩,
        ⟨"frc2", none, none, some "Nowhere", some "MI", none, none⟩]).2.2.2⟩

/-! ### Claim C7 -/

/-- C7: a fetched team contributes a row exactly when its own recorded state
passes the Michigan filter; the filter accepts precisely the strings equal
to MI or Michigan ignoring case, and rejects an absent state. -/
theorem c7_state_filter (env : TBAEnv) (tks : List String) (rows : List TeamRow)
    (h : fetchRows env tks = .ok rows) :
    (∀ row, row ∈ rows ↔
      ∃ tk ∈ tks, ∃ d, env.teamDetails tk = .ok d ∧ stateAccepted d.state_prov = true ∧
        row = mkRow tk d) ∧
    (∀ s, stateAccepted (some s) = true ↔
      (pyUpper s = pyUpper "MI" ∨ pyUpper s = pyUpper "Michigan")) ∧
    stateAccepted none = false := by
  refine ⟨?_, ?_, rfl⟩
  · induction tks generalizing rows with
    | nil =>
      cases h
      intro row
      simp
    | cons tk rest ih =>
      unfold fetchRows at h
      cases hd : env.teamDetails tk with
      | error e => rw [hd] at h; cases h
      | ok d =>
        rw [hd] at h
        dsimp only at h
        cases hr : fetchRows env rest with
        | error e => rw [hr] at h; cases h
        | ok more =>
          rw [hr] at h
          dsimp only at h
          cases h
          intro row
          rw [List.mem_append]
          constructor
          · rintro (hrow | hrow)
            · by_cases hacc : stateAccepted d.state_prov = true
              · rw [if_pos hacc] at hrow
                rcases List.mem_singleton.1 hrow with rfl
                exact ⟨tk, List.mem_cons_self tk rest, d, hd, hacc, rfl⟩
              · rw [if_neg hacc] at hrow
                cases hrow
            · obtain ⟨tk2, htk2, d2, hd2, hacc2, hrow2⟩ := (ih more hr row).1 hrow
              exact ⟨tk2, List.mem_cons_of_mem tk htk2, d2, hd2, hacc2, hrow2⟩
          · rintro ⟨tk2, htk2, d2, hd2, hacc2, rfl⟩
            rcases List.mem_cons.1 htk2 with rfl | htk3
            · rw [hd] at hd2
              injection hd2 with hd3
              subst hd3
              left
              rw [if_pos hacc2]
              exact List.mem_singleton.2 rfl
            · right
              exact (ih more hr (mkRow tk2 d2)).2 ⟨tk2, htk3, d2, hd2, hacc2, rfl⟩
  · intro s
    rw [show pyUpper "MI" = "MI" from by decide, show pyUpper "Michigan" = "MICHIGAN" from by decide]
    unfold stateAccepted
    rw [Bool.and_eq_true, Bool.or_eq_true, Bool.not_eq_true']
    constructor
    · rintro ⟨h1, h2 | h2⟩
      · exact Or.inl (by rwa [beq_iff_eq] at h2)
      · exact Or.inr (by rwa [beq_iff_eq] at h2)
    · rintro (h1 | h1)
      · refine ⟨?_, Or.inl (beq_iff_eq.2 h1)⟩
        rw [beq_eq_false_iff_ne]
        intro he
        subst he
        revert h1
        decide
      · refine ⟨?_, Or.inr (beq_iff_eq.2 h1)⟩
        rw [beq_eq_false_iff_ne]
        intro he
        subst he
        revert h1
        decide

/-- C7 witness: with a concrete two-team fetch (one Michigan team, one
California team) only the Michigan team's row appears; the filter accepts
"michigan" and rejects an absent state. -/
theorem c7_witness :
    (mkRow "frc33" ⟨some 33, some "Killer Bees", none, some "Auburn Hills", some "MI", some "48326"⟩ ∈
      [mkRow "frc33" ⟨some 33, some "Killer Bees", none, some "Auburn Hills", some "MI", some "48326"⟩] ↔
      ∃ tk ∈ ["frc33", "frc254"], ∃ d, wEnv.teamDetails tk = .ok d ∧
        stateAccepted d.state_prov = true ∧
        mkRow "frc33" ⟨some 33, some "Killer Bees", none, some "Auburn Hills", some "MI", some "48326"⟩ =
          mkRow tk d) ∧
    (stateAccepted (some "michigan") = true ↔
      (pyUpper "michigan" = pyUpper "MI" ∨ pyUpper "michigan" = pyUpper "Michigan")) ∧
    stateAccepted none = false :=
  ⟨(c7_state_filter wEnv ["frc33", "frc254"]
      [mkRow "frc33" ⟨some 33, some "Killer Bees", none, some "Auburn Hills", some "MI", some "48326"⟩]
      rfl).1 _,
    (c7_state_filter wEnv ["frc33", "frc254"]
      [mkRow "frc33" ⟨some 33, some "Killer Bees", none, some "Auburn Hills", some "MI", some "48326"⟩]
      rfl).2.1 "michigan",
    (c7_state_filter wEnv ["frc33", "frc254"]
      [mkRow "frc33" ⟨some 33, some "Killer Bees", none, some "Auburn Hills", some "MI", some "48326"⟩]
      rfl).2.2⟩

/-! ### Claim C2 -/

theorem filter_keys_nodup (counts : List (String × Nat))
    (hn : (counts.map Prod.fst).Nodup) (c : String) :
    (counts.filter (fun p => p.1 == c) = [] ∧ c ∉ counts.map Prod.fst) ∨
    (∃ n, counts.filter (fun p => p.1 == c) = [(c, n)] ∧ (c, n) ∈ counts) := by
  induction counts with
  | nil => exact Or.inl ⟨rfl, by simp⟩
  | cons a rest ih =>
    obtain ⟨a1, a2⟩ := a
    rw [List.map_cons, List.nodup_cons] at hn
    obtain ⟨ha, hrest⟩ := hn
    by_cases hac : a1 = c
    · subst hac
      have hfr : rest.filter (fun p => p.1 == a1) = [] := by
        rw [List.filter_eq_nil_iff]
        intro p hp hpc
        apply ha
        rw [beq_iff_eq] at hpc
        exact List.mem_map.2 ⟨p, hp, hpc⟩
      refine Or.inr ⟨a2, ?_, List.mem_cons_self _ _⟩
      rw [List.filter_cons, if_pos (by simp), hfr]
    · rw [List.filter_cons, if_neg (by simp [hac])]
      rcases ih hrest with ⟨h1, h2⟩ | ⟨n, h1, h2⟩
      · refine Or.inl ⟨h1, ?_⟩
        rw [List.map_cons, List.mem_cons]
        rintro (h3 | h3)
        · exact hac h3.symm
        · exact h2 h3
      · exact Or.inr ⟨n, h1, List.mem_cons_of_mem _ h2⟩

theorem lookup_eq_some_of_mem (counts : List (String × Nat))
    (hn : (counts.map Prod.fst).Nodup) (c : String) (n : Nat) (h : (c, n) ∈ counts) :
    counts.lookup c = some n := by
  induction counts with
  | nil => cases h
  | cons a rest ih =>
    obtain ⟨a1, a2⟩ := a
    rw [List.map_cons, List.nodup_cons] at hn
    obtain ⟨ha, hrest⟩ := hn
    rw [List.lookup_cons]
    by_cases hac : c = a1
    · subst hac
      rw [show (c == c) = true from by simp]
      rcases List.mem_cons.1 h with h2 | h2
      · injection h2 with h3 h4
        rw [h4]
      · exact absurd (List.mem_map.2 ⟨(c, n), h2, rfl⟩) ha
    · rw [show (c == a1) = false from by simp [hac]]
      rcases List.mem_cons.1 h with h2 | h2
      · injection h2 with h3 h4
        exact absurd h3 hac
      · exact ih hrest h2

theorem mem_of_lookup_eq_some (counts : List (String × Nat)) (c : String) (n : Nat)
    (h : counts.lookup c = some n) : (c, n) ∈ counts := by
  induction counts with
  | nil => cases h
  | cons a rest ih =>
    obtain ⟨a1, a2⟩ := a
    rw [List.lookup_cons] at h
    by_cases hac : c = a1
    · subst hac
      rw [show (c == c) = true from by simp] at h
      injection h with h2
      rw [← h2]
      exact List.mem_cons_self _ _
    · rw [show (c == a1) = false from by simp [hac]] at h
      exact List.mem_cons_of_mem _ (ih h)

theorem lookup_eq_none_iff (counts : List (String × Nat)) (c : String) :
    counts.lookup c = none ↔ c ∉ counts.map Prod.fst := by
  induction counts with
  | nil => simp
  | cons a rest ih =>
    obtain ⟨a1, a2⟩ := a
    rw [List.lookup_cons, List.map_cons]
    by_cases hac : c = a1
    · subst hac
      rw [show (c == c) = true from by simp]
      simp
    · rw [show (c == a1) = false from by simp [hac], ih, List.mem_cons]
      constructor
      · rintro h (h2 | h2)
        · exact hac h2
        · exact h h2
      · intro h h2
        exact h (Or.inr h2)

theorem mergeLeft_eq_map (geos : List String) (counts : List (String × Nat))
    (hc : (counts.map Prod.fst).Nodup) :
    mergeLeft geos counts = geos.map (fun g => (g, (counts.lookup g).getD 0)) := by
  induction geos with
  | nil => rfl
  | cons g gs ih =>
    unfold mergeLeft at ih ⊢
    rw [List.flatMap_cons, ih, List.map_cons]
    rcases filter_keys_nodup counts hc g with ⟨h1, h2⟩ | ⟨n, h1, h2⟩
    · rw [h1, (lookup_eq_none_iff counts g).2 h2]
      rfl
    · rw [h1, lookup_eq_some_of_mem counts hc g n h2]
      rfl

/-- C2: with distinct geometry counties and distinct aggregate keys, the
left join keeps every geometry county exactly once and in order, pairs it
with its aggregate count when one exists and with 0 otherwise, and any
aggregate county with no matching geometry is absent from the output. -/
theorem c2_geometry_left_join (geos : List String) (counts : List (String × Nat))
    (hg : geos.Nodup) (hc : (counts.map Prod.fst).Nodup) :
    ((mergeLeft geos counts).map Prod.fst = geos) ∧
    ((mergeLeft geos counts).map Prod.fst).Nodup ∧
    (∀ g n, (g, n) ∈ mergeLeft geos counts →
      (g, n) ∈ counts ∨ (n = 0 ∧ g ∉ counts.map Prod.fst)) ∧
    (∀ g n, g ∈ geos → (g, n) ∈ counts → (g, n) ∈ mergeLeft geos counts) ∧
    (∀ g, g ∈ geos → g ∉ counts.map Prod.fst → (g, 0) ∈ mergeLeft geos counts) ∧
    (∀ p, p ∈ counts → p.1 ∉ geos → ∀ q, q ∈ mergeLeft geos counts → q.1 ≠ p.1) := by
  have hM := mergeLeft_eq_map geos counts hc
  have hfst : (mergeLeft geos counts).map Prod.fst = geos := by
    rw [hM, List.map_map]
    exact List.map_id geos
  refine ⟨hfst, by rw [hfst]; exact hg, ?_, ?_, ?_, ?_⟩
  · intro g n hmem
    rw [hM] at hmem
    obtain ⟨g2, hg2, heq⟩ := List.mem_map.1 hmem
    injection heq with he1 he2
    subst he1
    cases hl : counts.lookup g2 with
    | some m =>
      rw [hl] at he2
      dsimp at he2
      subst he2
      exact Or.inl (mem_of_lookup_eq_some counts g2 m hl)
    | none =>
      rw [hl] at he2
      dsimp at he2
      exact Or.inr ⟨he2.symm, (lookup_eq_none_iff counts g2).1 hl⟩
  · intro g n hgm hcm
    rw [hM]
    refine List.mem_map.2 ⟨g, hgm, ?_⟩
    rw [lookup_eq_some_of_mem counts hc g n hcm]
    rfl
  · intro g hgm hnone
    rw [hM]
    refine List.mem_map.2 ⟨g, hgm, ?_⟩
    rw [(lookup_eq_none_iff counts g).2 hnone]
    rfl
  · intro p hp hpg q hq
    rw [hM] at hq
    obtain ⟨g2, hg2, heq⟩ := List.mem_map.1 hq
    rw [← heq]
    intro hcon
    dsimp at hcon
    rw [hcon] at hg2
    exact hpg hg2

/-- C2 witness: joining counts for Wayne and Oakland onto geometries for
Wayne, Oakland and Washtenaw keeps all three geometries once, Washtenaw
at 0. -/
theorem c2_witness :
    (mergeLeft ["Wayne", "Oakland", "Washtenaw"] [("Oakland", 1), ("Wayne", 2)]).map Prod.fst =
      ["Wayne", "Oakland", "Washtenaw"] ∧
    ((mergeLeft ["Wayne", "Oakland", "Washtenaw"] [("Oakland", 1), ("Wayne", 2)]).map
      Prod.fst).Nodup ∧
    ("Wayne", 2) ∈ mergeLeft ["Wayne", "Oakland", "Washtenaw"] [("Oakland", 1), ("Wayne", 2)] ∧
    ("Washtenaw", 0) ∈ mergeLeft ["Wayne", "Oakland", "Washtenaw"] [("Oakland", 1), ("Wayne", 2)] :=
  ⟨(c2_geometry_left_join ["Wayne", "Oakland", "Washtenaw"] [("Oakland", 1), ("Wayne", 2)]
      (by decide) (by decide)).1,
    (c2_geometry_left_join ["Wayne", "Oakland", "Washtenaw"] [("Oakland", 1), ("Wayne", 2)]
      (by decide) (by decide)).2.1,
    (c2_geometry_left_join ["Wayne", "Oakland", "Washtenaw"] [("Oakland", 1), ("Wayne", 2)]
      (by decide) (by decide)).2.2.2.1 "Wayne" 2 (by decide) (by decide),
    (c2_geometry_left_join ["Wayne", "Oakland", "Washtenaw"] [("Oakland", 1), ("Wayne", 2)]
      (by decide) (by decide)).2.2.2.2.1 "Washtenaw" (by decide) (by decide)⟩

/-! ### Claim C8 -/

theorem collectTeamKeys_ok_forall (env : TBAEnv) (l : List String) (ks : List String)
    (h : collectTeamKeys env l = .ok ks) :
    ∀ ek ∈ l, ∃ ts, env.eventTeams ek = .ok ts := by
  induction l generalizing ks with
  | nil => intro ek hek; cases hek
  | cons e0 rest ih =>
    unfold collectTeamKeys at h
    cases he : env.eventTeams e0 with
    | error err => rw [he] at h; cases h
    | ok ts =>
      rw [he] at h
      dsimp only at h
      cases hrest : collectTeamKeys env rest with
      | error err => rw [hrest] at h; cases h
      | ok more =>
        intro ek hek
        rcases List.mem_cons.1 hek with rfl | hek2
        · exact ⟨ts, he⟩
        · exact ih more hrest ek hek2

theorem fetchRows_ok_forall (env : TBAEnv) (l : List String) (rows : List TeamRow)
    (h : fetchRows env l = .ok rows) :
    ∀ tk ∈ l, ∃ d, env.teamDetails tk = .ok d := by
  induction l generalizing rows with
  | nil => intro tk htk; cases htk
  | cons t0 rest ih =>
    unfold fetchRows at h
    cases hd : env.teamDetails t0 with
    | error err => rw [hd] at h; cases h
    | ok d =>
      rw [hd] at h
      dsimp only at h
      cases hrest : fetchRows env rest with
      | error err => rw [hrest] at h; cases h
      | ok more =>
        intro tk htk
        rcases List.mem_cons.1 htk with rfl | htk2
        · exact ⟨d, hd⟩
        · exact ih more hrest tk htk2

theorem mainE_ok_parts (env : TBAEnv) (pgaz : List PlaceRow) (zgaz : String → Option String)
    (out : List (String × Nat)) (h : mainE env pgaz zgaz = .ok out) :
    ∃ evs, env.events = .ok evs ∧
    ∃ ks, collectTeamKeys env (miEventKeys evs) = .ok ks ∧
    ∃ rows, fetchRows env (sortStrs (dedupFirst ks)) = .ok rows ∧
    ∃ geos, geoStage env = .ok geos := by
  unfold mainE at h
  cases he : env.events with
  | error e2 => rw [he] at h; cases h
  | ok evs =>
    rw [he] at h
    dsimp only at h
    cases hc : collectTeamKeys env (miEventKeys evs) with
    | error e2 => rw [hc] at h; cases h
    | ok ks =>
      rw [hc] at h
      dsimp only at h
      cases hf : fetchRows env (sortStrs (dedupFirst ks)) with
      | error e2 => rw [hf] at h; cases h
      | ok rows =>
        rw [hf] at h
        dsimp only at h
        cases hg : geoStage env with
        | error e2 => rw [hg] at h; cases h
        | ok geos => exact ⟨evs, rfl, ks, hc, rows, hf, geos, rfl⟩

/-- C8: a raised exception in any network fetch — the season event list, an
event roster, or a team's details — propagates out of the pipeline, which
therefore produces no joined output, and the console entry point catches it,
prints a traceback and exits 1. -/
theorem c8_network_failure_aborts (env : TBAEnv) (pgaz : List PlaceRow)
    (zgaz : String → Option String)
    (h : (∃ e, env.events = .error e) ∨
      (∃ evs, env.events = .ok evs ∧ ∃ ek ∈ miEventKeys evs, ∃ e, env.eventTeams ek = .error e) ∨
      (∃ evs ks, env.events = .ok evs ∧ collectTeamKeys env (miEventKeys evs) = .ok ks ∧
        ∃ tk ∈ sortStrs (dedupFirst ks), ∃ e, env.teamDetails tk = .error e)) :
    (∃ e, mainE env pgaz zgaz = .error e) ∧
    consoleRun env pgaz zgaz = (1, true, none) := by
  have habort : ∀ out, mainE env pgaz zgaz ≠ .ok out := by
    intro out hout
    obtain ⟨evs, he, ks, hc, rows, hf, geos, hg⟩ := mainE_ok_parts env pgaz zgaz out hout
    rcases h with ⟨e, h1⟩ | ⟨evs2, he2, ek, hek, e, hev⟩ | ⟨evs2, ks2, he2, hc2, tk, htk, e, hdet⟩
    · rw [h1] at he
      cases he
    · have hevs : evs = evs2 := by
        have := he.symm.trans he2
        injection this
      subst hevs
      obtain ⟨ts, hts⟩ := collectTeamKeys_ok_forall env (miEventKeys evs) ks hc ek hek
      rw [hev] at hts
      cases hts
    · have hevs : evs = evs2 := by
        have := he.symm.trans he2
        injection this
      subst hevs
      have hks : ks = ks2 := by
        have := hc.symm.trans hc2
        injection this
      subst hks
      obtain ⟨d, hd⟩ := fetchRows_ok_forall env (sortStrs (dedupFirst ks)) rows hf tk htk
      rw [hdet] at hd
      cases hd
  cases hm : mainE env pgaz zgaz with
  | ok out => exact absurd hm (habort out)
  | error e =>
    refine ⟨⟨e, rfl⟩, ?_⟩
    unfold consoleRun
    rw [hm]

/-- C8 witness: a failing season event list fetch makes the console run
print a traceback, produce no output and exit 1. -/
theorem c8_witness :
    consoleRun wEnvFail [] gazCounterC3 = (1, true, none) :=
  (c8_network_failure_aborts wEnvFail [] gazCounterC3 (Or.inl ⟨"ConnectionError", rfl⟩)).2

/-! ### Claim C9 -/

/-- C9: when the loaded geometry exposes none of the accepted county-name
fields, the geometry stage raises a RuntimeError, and the run can produce
no joined output or map. -/
theorem c9_missing_name_field (env : TBAEnv) (pgaz : List PlaceRow)
    (zgaz : String → Option String) (g : GeoTable) (hg : env.geo = .ok g)
    (h : ∀ f ∈ NAME_FIELDS, g.columns.contains f = false) :
    geoStage env = .error "Could not find county name field in county shapefile." ∧
    ∀ out, mainE env pgaz zgaz ≠ .ok out := by
  have hfind : NAME_FIELDS.find? (fun f => g.columns.contains f) = none := by
    rw [List.find?_eq_none]
    intro f hf
    rw [h f hf]
    exact Bool.false_ne_true
  have hstage : geoStage env = .error "Could not find county name field in county shapefile." := by
    unfold geoStage
    rw [hg]
    dsimp only
    rw [hfind]
  refine ⟨hstage, ?_⟩
  intro out hout
  obtain ⟨evs, he, ks, hc, rows, hf2, geos, hgeo⟩ := mainE_ok_parts env pgaz zgaz out hout
  rw [hstage] at hgeo
  cases hgeo

/-- C9 witness: a geometry table with only an unrecognised column makes the
geometry stage fail and the run produce no output. -/
theorem c9_witness :
    geoStage wEnvNoField = .error "Could not find county name field in county shapefile." ∧
    mainE wEnvNoField [] gazCounterC3 ≠ .ok [] :=
  ⟨(c9_missing_name_field wEnvNoField [] gazCounterC3 ⟨["foo"], fun _ => []⟩ rfl (by decide)).1,
    (c9_missing_name_field wEnvNoField [] gazCounterC3 ⟨["foo"], fun _ => []⟩ rfl (by decide)).2 []⟩
